import Mathlib

/-!
# Verification of the mt-addon-calendar core

Shallow embedding of the `Calendar` class (`src/Calendar.ts`) and the
`Utils.bsearch` helper of the mt-addon-calendar repository, together with
proofs and refutations of the specified properties.

Modelling conventions:
* JS numbers appearing as integer day/time counters are modelled as `Int`.
* JS objects used as dictionaries (`extentsByStart`, `extentsByName`) are
  modelled as association lists with an update-or-append write operation.
* JS exceptions are modelled with `Except` (or an explicit error component
  where the post-throw heap state matters).
* The JS `while` loops are modelled with an explicit fuel parameter; fuel
  exhaustion (`JsErr.fuelOut`) models divergence.  Theorems below show the
  chosen fuel is sufficient under the spec's preconditions.
-/

namespace MtCalendar

/-- Errors signalled by the embedded code.  Constructors mirror the `throw`
sites in `src/Calendar.ts` and `src/unnamed/part_001` (`Utils.bsearch`). -/
inductive JsErr where
  /-- `TypeError` "Incorrect type of extents array" (generator result not an array). -/
  | typeErrorNonArray
  /-- `TypeError` "Incorrect type in extents array, index i of n" (non-object element). -/
  | typeErrorElem (index : Nat) (total : Nat)
  /-- `Error` "buildExtents() called when data is already cached". -/
  | fatalAlreadyCached
  /-- `Error` "day adjusted backward is now being adjust forward". -/
  | fatalBackForth
  /-- JS crash from reading a property of `undefined` (empty extents list). -/
  | emptyYearCrash
  /-- JS crash from an out-of-range array read. -/
  | indexCrash
  /-- `TypeError` "First parameter to bsearch() must not be empty". -/
  | typeErrorEmptyArray
  /-- `RangeError` "comparison function in bsearch() returned invalid value". -/
  | rangeErrorCmp
  /-- Fuel exhaustion: models a JS `while` loop that never exits. -/
  | fuelOut
deriving DecidableEq

/-! ## Association lists

JS dictionary objects are modelled as association lists.  `lookupA` models
property read (`undefined` ↦ `none`), `insertA` models property write
(overwrite if present, append otherwise). -/

/-- Dictionary read: first value stored under key `k`, if any. -/
def lookupA {κ β : Type} [DecidableEq κ] : List (κ × β) → κ → Option β
  | [], _ => none
  | (k1, v1) :: rest, k => if k1 = k then some v1 else lookupA rest k

/-- Dictionary write: overwrite the entry under `k` or append a new one. -/
def insertA {κ β : Type} [DecidableEq κ] : List (κ × β) → κ → β → List (κ × β)
  | [], k, v => [(k, v)]
  | (k1, v1) :: rest, k, v =>
    if k1 = k then (k, v) :: rest else (k1, v1) :: insertA rest k v

theorem lookupA_insertA_self {κ β : Type} [DecidableEq κ]
    (l : List (κ × β)) (k : κ) (v : β) : lookupA (insertA l k v) k = some v := by
  induction l with
  | nil => simp [insertA, lookupA]
  | cons p rest ih =>
    by_cases h : p.1 = k
    · simp [insertA, lookupA, h]
    · simp only [insertA, lookupA, h, if_false]
      simpa [lookupA, h] using ih

theorem lookupA_insertA_ne {κ β : Type} [DecidableEq κ]
    (l : List (κ × β)) (k k' : κ) (v : β) (hne : k ≠ k') :
    lookupA (insertA l k v) k' = lookupA l k' := by
  induction l with
  | nil => simp [insertA, lookupA, hne]
  | cons p rest ih =>
    by_cases h : p.1 = k
    · simp [insertA, lookupA, h, hne]
    · simp only [insertA, lookupA, h, if_false]
      by_cases h2 : p.1 = k'
      · simp [lookupA, h2]
      · simpa [lookupA, h2] using ih

/-! ## `Utils.bsearch` (src/unnamed/part_001, lines 28-72)

The comparator is modelled as an explicit `Int`-valued three-way comparison
function (the source's optional-comparator probing always ends in such a
function).  The loop state is `(low, high, mid)` exactly as in the source;
`mid` starts at `0` and keeps the last computed midpoint, and the
not-found exit returns `-mid`. -/

/-- Loop body of `Utils.bsearch`: `while (low <= high) ...`, returning
`mid` on an exact match and `-mid` once `low > high`. -/
def bsearchGo {α : Type} (ary : List α) (value : α) (cmp : α → α → Int) :
    Nat → Int → Int → Int → Except JsErr Int
  | fuel, low, high, mid =>
    if low ≤ high then
      match fuel with
      | 0 => .error .fuelOut
      | f + 1 =>
        let m := (low + high) / 2
        match ary.get? m.toNat with
        | none => .error .indexCrash
        | some a =>
          if cmp value a = -1 then bsearchGo ary value cmp f low (m - 1) m
          else if cmp value a = 0 then .ok m
          else if cmp value a = 1 then bsearchGo ary value cmp f (m + 1) high m
          else .error .rangeErrorCmp
    else .ok (-mid)

/-- `Utils.bsearch(ary, value, compare)`: binary search over `ary`.
Empty arrays throw; otherwise runs the search loop with
`low = 0`, `high = ary.length - 1`, `mid = 0`. -/
def bsearch {α : Type} (ary : List α) (value : α) (cmp : α → α → Int) :
    Except JsErr Int :=
  if ary.length = 0 then .error .typeErrorEmptyArray
  else bsearchGo ary value cmp (ary.length + 1) 0 ((ary.length : Int) - 1) 0

/-- The standard three-way comparison on `Int`, as used by the repository's
own test suite (`Utils.compare`). -/
def intCmp (a b : Int) : Int := if a < b then -1 else if a = b then 0 else 1

/-- Claim C5: refuted by evaluation.  On the ascending one-element array
`[10]` with search value `15`, `bsearch` returns `0`: the value is absent
(so `0` cannot mean "found at index 0", since the element at index 0 is
`10 ≠ 15`) and the insertion index is `1`, whose negation is `-1 ≠ 0`.
The not-found return value `-mid` is the negated last midpoint, not the
negated insertion index promised by the source's own comment. -/
theorem bsearch_not_negated_insertion_index :
    (bsearch [(10 : Int)] 15 intCmp).toOption = some 0 ∧
    (15 : Int) ≠ 10 ∧ (0 : Int) ≠ -1 := by decide

/-! ## Dynamic-value layer: `Calendar.buildExtents` validation
(src/Calendar.ts, lines 186-216)

Because the generator can be called from plain JS, `buildExtents` performs
dynamic checks on its result.  This layer models the generator result as a
dynamic value: either an array of element values or a non-array value, and
each element as a number, a string, or an object whose `name` and `length`
properties may each be missing (`undefined`). -/

/-- A JS element value, as far as `buildExtents` inspects it. -/
inductive JSVal where
  | num (n : Int)
  | str (s : String)
  /-- An object; `name` / `length` properties may be absent (`undefined`). -/
  | obj (nameProp : Option String) (lengthProp : Option Int)
deriving DecidableEq

/-- The `typeof v === "object"` test performed on each element. -/
def JSVal.isObject : JSVal → Bool
  | .obj _ _ => true
  | _ => false

/-- Reading `v.name` (`none` = `undefined`). -/
def JSVal.nameProp? : JSVal → Option String
  | .obj n _ => n
  | _ => none

/-- Reading `v.length` (`none` = `undefined`). -/
def JSVal.lengthProp? : JSVal → Option Int
  | .obj _ l => l
  | _ => none

/-- Result of calling the user generator, before the `Array.isArray` check. -/
inductive JSGenResult where
  | arr (elems : List JSVal)
  | notArray (v : JSVal)

/-- JS property-key coercion used for `this.extentsByName[v.name]`:
a missing `name` (`undefined`) is coerced to the string key `"undefined"`. -/
def jsKey : Option String → String
  | some s => s
  | none => "undefined"

/-- JS addition where `none` models `NaN`/`undefined`: adding a missing
`length` poisons the running `start` offset. -/
def jsAdd : Option Int → Option Int → Option Int
  | some a, some b => some (a + b)
  | _, _ => none

/-- The dynamic-layer view of `_InternalExtent` (`startDay` may be `NaN`). -/
structure JSInternalExtent where
  startYear : Int
  startDay : Option Int
  originalExt : JSVal
deriving DecidableEq

/-- The by-name cache view: extent name → year → resolved extent. -/
abbrev JSByName : Type := List (String × List (Int × JSInternalExtent))

/-- The two cache views owned by the `Calendar`, dynamic layer. -/
structure JSCacheState where
  extentsByStart : List (Int × List JSInternalExtent)
  extentsByName : JSByName
deriving DecidableEq

/-- The fresh cache state of a newly constructed `Calendar`. -/
def jsEmptyCache : JSCacheState := ⟨[], []⟩

/-- The per-element insertion into `extentsByName` performed inside the
`ext.map` callback of `buildExtents`. -/
def insertByName (bn : JSByName) (key : String) (year : Int)
    (rv : JSInternalExtent) : JSByName :=
  match lookupA bn key with
  | some m => insertA bn key (insertA m year rv)
  | none => insertA bn key [(year, rv)]

/-- The `ext.map((v, index) => ...)` loop of `buildExtents`.  Walks the
element list with the running `start` offset, threading the
`extentsByName` object which the callback mutates in place; throwing on a
non-object element aborts the loop but keeps all mutations already made
(JS exceptions do not roll back heap writes). -/
def buildLoopJS (year : Int) (total : Nat) :
    Nat → Option Int → JSByName → List JSVal →
    Option JsErr × List JSInternalExtent × JSByName
  | _, _, bn, [] => (none, [], bn)
  | index, start, bn, v :: rest =>
    if v.isObject = false then (some (.typeErrorElem index total), [], bn)
    else
      let rv : JSInternalExtent := ⟨year, start, v⟩
      let bn1 := insertByName bn (jsKey v.nameProp?) year rv
      match buildLoopJS year total (index + 1) (jsAdd start v.lengthProp?) bn1 rest with
      | (e, tail, bnf) => (e, rv :: tail, bnf)

/-- `Calendar.buildExtents(year)`, dynamic layer.  Returns the signalled
error (if any) together with the post-call cache state: on a mid-list
validation failure `extentsByStart` is untouched (the `map` result is never
assigned) but `extentsByName` keeps the entries inserted for the elements
preceding the failure. -/
def buildExtentsJS (gen : Int → JSGenResult) (s : JSCacheState) (year : Int) :
    Option JsErr × JSCacheState :=
  if (lookupA s.extentsByStart year).isSome then (some .fatalAlreadyCached, s)
  else
    match gen year with
    | .notArray _ => (some .typeErrorNonArray, s)
    | .arr l =>
      match buildLoopJS year l.length 0 (some 0) s.extentsByName l with
      | (some e, _, bnf) => (some e, { s with extentsByName := bnf })
      | (none, resolved, bnf) =>
        (none, ⟨insertA s.extentsByStart year resolved, bnf⟩)

/-- Generator producing a valid first element and then a plain number:
validation fails at index 1. -/
def genBadSecond : Int → JSGenResult :=
  fun _ => .arr [.obj (some "Jan") (some 31), .num 5]

/-- Generator producing a single object element that has neither a `name`
nor a `length` property. -/
def genShapeless : Int → JSGenResult := fun _ => .arr [.obj none none]

/-- Claim C3: refuted by evaluation.  Resolving year 2022 with a generator
whose element at index 1 fails validation signals the type error, leaves
`extentsByStart` without an entry for 2022 — but `extentsByName` retains
the entry inserted for the valid element at index 0 ("Jan"), so the error
is not signalled before all cache mutation and the previous consistent
state is not fully restored. -/
theorem buildExtents_partial_byName_mutation :
    (buildExtentsJS genBadSecond jsEmptyCache 2022).1 =
      some (.typeErrorElem 1 2) ∧
    lookupA (buildExtentsJS genBadSecond jsEmptyCache 2022).2.extentsByStart 2022
      = none ∧
    lookupA (buildExtentsJS genBadSecond jsEmptyCache 2022).2.extentsByName "Jan"
      = some [(2022, ⟨2022, some 0, .obj (some "Jan") (some 31)⟩)] := by decide

/-- Claim C4, counterexample: an element that is an object but lacks both
the `name` and the `length` field is accepted by `buildExtents` without
any error — only `typeof v === "object"` is checked, so "an element
lacking the required extent shape signals a type/validation error" is
false on the code. -/
theorem buildExtents_accepts_shapeless_object :
    (buildExtentsJS genShapeless jsEmptyCache 2022).1 = none := by decide

theorem buildLoopJS_error_at_first_nonobject (year : Int) (total : Nat) :
    ∀ (pre : List JSVal) (v : JSVal) (post : List JSVal) (index : Nat)
      (start : Option Int) (bn : JSByName),
      (∀ u ∈ pre, u.isObject = true) → v.isObject = false →
      (buildLoopJS year total index start bn (pre ++ v :: post)).1 =
        some (.typeErrorElem (index + pre.length) total) := by
  intro pre
  induction pre with
  | nil =>
    intro v post index start bn _ hv
    simp [buildLoopJS, hv]
  | cons u rest ih =>
    intro v post index start bn hpre hv
    have hu : u.isObject = true := hpre u (List.mem_cons_self u rest)
    have hrest : ∀ w ∈ rest, w.isObject = true :=
      fun w hw => hpre w (List.mem_cons_of_mem u hw)
    simp only [List.cons_append, buildLoopJS, hu, Bool.true_eq_false, if_false,
      List.append_eq]
    rw [ih v post (index + 1) (jsAdd start u.lengthProp?)
      (insertByName bn (jsKey u.nameProp?) year ⟨year, start, u⟩) hrest hv]
    simp [List.length_cons]
    omega

theorem buildLoopJS_ok_of_all_objects (year : Int) (total : Nat) :
    ∀ (l : List JSVal) (index : Nat) (start : Option Int) (bn : JSByName),
      (∀ u ∈ l, u.isObject = true) →
      (buildLoopJS year total index start bn l).1 = none := by
  intro l
  induction l with
  | nil => intro index start bn _; simp [buildLoopJS]
  | cons u rest ih =>
    intro index start bn hl
    have hu : u.isObject = true := hl u (List.mem_cons_self u rest)
    have hrest : ∀ w ∈ rest, w.isObject = true :=
      fun w hw => hl w (List.mem_cons_of_mem u hw)
    simp only [buildLoopJS, hu, Bool.true_eq_false, if_false]
    rw [ih (index + 1) (jsAdd start u.lengthProp?)
      (insertByName bn (jsKey u.nameProp?) year ⟨year, start, u⟩) hrest]

/-- Claim C4, amended: for an uncached year, `resolve(y)` signals
`typeErrorNonArray` when the generator result is not an array; when the
result is an array whose first non-object element sits at index
`pre.length` (all earlier elements being objects), it signals a type error
naming exactly that index and the array length; and an array consisting
entirely of objects — regardless of whether they carry `name`/`length`
fields — is accepted without any error. -/
theorem buildExtents_validation_behaviour (gen : Int → JSGenResult)
    (s : JSCacheState) (year : Int)
    (hun : (lookupA s.extentsByStart year).isSome = false) :
    (∀ v, gen year = .notArray v →
        (buildExtentsJS gen s year).1 = some .typeErrorNonArray) ∧
    (∀ (pre : List JSVal) (v : JSVal) (post : List JSVal),
        gen year = .arr (pre ++ v :: post) →
        (∀ u ∈ pre, u.isObject = true) → v.isObject = false →
        (buildExtentsJS gen s year).1 =
          some (.typeErrorElem pre.length (pre ++ v :: post).length)) ∧
    (∀ l, gen year = .arr l → (∀ u ∈ l, u.isObject = true) →
        (buildExtentsJS gen s year).1 = none) := by
  refine ⟨?_, ?_, ?_⟩
  · intro v hv
    simp [buildExtentsJS, hun, hv]
  · intro pre v post hgen hpre hv
    have hloop := buildLoopJS_error_at_first_nonobject year
      (pre ++ v :: post).length pre v post 0 (some 0) s.extentsByName hpre hv
    simp only [Nat.zero_add] at hloop
    simp only [buildExtentsJS, hun, Bool.false_eq_true, if_false, hgen]
    rcases hres : buildLoopJS year (pre ++ v :: post).length 0 (some 0)
        s.extentsByName (pre ++ v :: post) with ⟨e, tail, bnf⟩
    rw [hres] at hloop
    simp at hloop
    subst hloop
    simp
  · intro l hgen hl
    have hloop := buildLoopJS_ok_of_all_objects year l.length l 0 (some 0)
      s.extentsByName hl
    simp only [buildExtentsJS, hun, Bool.false_eq_true, if_false, hgen]
    rcases hres : buildLoopJS year l.length 0 (some 0) s.extentsByName l
      with ⟨e, tail, bnf⟩
    rw [hres] at hloop
    simp at hloop
    subst hloop
    simp

/-- Witness for the amended C4 theorem: concrete instantiations of all
three branches on explicit generators and the empty cache. -/
theorem buildExtents_validation_behaviour_witness :
    (buildExtentsJS (fun _ => .notArray (.num 3)) jsEmptyCache 7).1 =
      some .typeErrorNonArray ∧
    (buildExtentsJS genBadSecond jsEmptyCache 7).1 =
      some (.typeErrorElem 1 2) ∧
    (buildExtentsJS genShapeless jsEmptyCache 7).1 = none := by
  refine ⟨?_, ?_, ?_⟩
  · exact (buildExtents_validation_behaviour (fun _ => .notArray (.num 3))
      jsEmptyCache 7 (by decide)).1 (.num 3) rfl
  · exact (buildExtents_validation_behaviour genBadSecond jsEmptyCache 7
      (by decide)).2.1 [.obj (some "Jan") (some 31)] (.num 5) [] rfl
      (by decide) (by decide)
  · exact (buildExtents_validation_behaviour genShapeless jsEmptyCache 7
      (by decide)).2.2 [.obj none none] rfl (by decide)

/-! ## Typed calendar layer (src/Calendar.ts)

For the arithmetic and caching claims the generator is well typed
(`Int → List Extent`, as in the TS signature), so the dynamic checks of
the previous section always pass; everything else — the two cache views,
the lazy per-year resolution, and the day/time normalization loops — is
modelled exactly as in the source.  `genLog` is ghost instrumentation
recording every year the generator is invoked for. -/

/-- The user-facing `Extent` record (`name`, `length`). -/
structure Extent where
  name : String
  length : Int
deriving DecidableEq

/-- The `_InternalExtent` record: an extent positioned within its year. -/
structure InternalExtent where
  startYear : Int
  startDay : Int
  originalExt : Extent
deriving DecidableEq

/-- The mutable state of a `Calendar` instance (cache views, position
fields), plus the ghost `genLog` of generator invocations. -/
structure CalState where
  extentsByStart : List (Int × List InternalExtent)
  extentsByName : List (String × List (Int × InternalExtent))
  startYear : Int
  totalDays : Int
  currentDay : Int
  currentTime : Int
  genLog : List Int
deriving DecidableEq

/-- The body of the `ext.map` callback in `buildExtents`, typed layer:
positions each extent at the running `start` offset and inserts it into
the by-name view. -/
def buildLoop (year : Int) :
    Int → List (String × List (Int × InternalExtent)) → List Extent →
    List InternalExtent × List (String × List (Int × InternalExtent))
  | _, bn, [] => ([], bn)
  | start, bn, e :: rest =>
    let rv : InternalExtent := ⟨year, start, e⟩
    let bn1 :=
      match lookupA bn e.name with
      | some m => insertA bn e.name (insertA m year rv)
      | none => insertA bn e.name [(year, rv)]
    match buildLoop year (start + e.length) bn1 rest with
    | (tail, bnf) => (rv :: tail, bnf)

/-- `Calendar.buildExtents(year)`, typed layer: fails loudly when the year
is already cached, otherwise resolves the generator's list into both cache
views and logs the generator invocation. -/
def buildExtents (gen : Int → List Extent) (s : CalState) (year : Int) :
    Except JsErr CalState :=
  if (lookupA s.extentsByStart year).isSome then .error .fatalAlreadyCached
  else
    .ok { s with
      extentsByStart :=
        insertA s.extentsByStart year (buildLoop year 0 s.extentsByName (gen year)).1,
      extentsByName := (buildLoop year 0 s.extentsByName (gen year)).2,
      genLog := year :: s.genLog }

/-- `lastExtent.startDay + lastExtent.originalExt.length`, or `none` when
the list is empty (where the JS code would crash reading a property of
`undefined`). -/
def lastTotal (l : List InternalExtent) : Option Int :=
  l.getLast?.map fun e => e.startDay + e.originalExt.length

/-- `Calendar.getLengthOfYear(year)`: lazily resolves the year, then reads
the day count off the last cached extent. -/
def getLengthOfYear (gen : Int → List Extent) (s : CalState) (year : Int) :
    Except JsErr (CalState × Int) :=
  match (if (lookupA s.extentsByStart year).isSome then .ok s
         else buildExtents gen s year : Except JsErr CalState) with
  | .error e => .error e
  | .ok s1 =>
    match lookupA s1.extentsByStart year with
    | none => .error .emptyYearCrash
    | some l =>
      match lastTotal l with
      | none => .error .emptyYearCrash
      | some t => .ok (s1, t)

/-- The backward rollover loop of `setCurrentDay`:
`while (n < 0) { thisYear -= 1; totalDays = getLengthOfYear(thisYear); n += totalDays }`. -/
def rollBackward (gen : Int → List Extent) :
    Nat → CalState → Int → Int → Int →
    Except JsErr (CalState × Int × Int × Int)
  | 0, s, thisYear, totalDays, n =>
    if n < 0 then .error .fuelOut else .ok (s, thisYear, totalDays, n)
  | fuel + 1, s, thisYear, totalDays, n =>
    if n < 0 then
      match getLengthOfYear gen s (thisYear - 1) with
      | .error e => .error e
      | .ok (s1, td) => rollBackward gen fuel s1 (thisYear - 1) td (n + td)
    else .ok (s, thisYear, totalDays, n)

/-- The forward rollover loop of `setCurrentDay`:
`while (n >= totalDays) { thisYear += 1; totalDays = getLengthOfYear(thisYear); n -= totalDays }`.
Note it subtracts the freshly incremented year's length. -/
def rollForward (gen : Int → List Extent) :
    Nat → CalState → Int → Int → Int →
    Except JsErr (CalState × Int × Int × Int)
  | 0, s, thisYear, totalDays, n =>
    if n ≥ totalDays then .error .fuelOut else .ok (s, thisYear, totalDays, n)
  | fuel + 1, s, thisYear, totalDays, n =>
    if n ≥ totalDays then
      match getLengthOfYear gen s (thisYear + 1) with
      | .error e => .error e
      | .ok (s1, td) => rollForward gen fuel s1 (thisYear + 1) td (n - td)
    else .ok (s, thisYear, totalDays, n)

/-- `Calendar.setCurrentDay(n)`: computes into temporaries, rolls the year
backward/forward as needed (raising the internal-consistency error if a
forward roll would follow a backward roll), and commits the three position
fields at the end. -/
def setCurrentDay (gen : Int → List Extent) (s : CalState) (n : Int) :
    Except JsErr CalState :=
  match getLengthOfYear gen s s.startYear with
  | .error e => .error e
  | .ok (s1, td0) =>
    match rollBackward gen (n.natAbs + 1) s1 s.startYear td0 n with
    | .error e => .error e
    | .ok (s2, y1, td1, n1) =>
      if n1 ≥ td1 then
        if s.startYear ≠ y1 then .error .fatalBackForth
        else
          match rollForward gen (n.natAbs + 1) s2 y1 td1 n1 with
          | .error e => .error e
          | .ok (s3, y2, td2, n2) =>
            .ok { s3 with currentDay := n2, startYear := y2, totalDays := td2 }
      else .ok { s2 with currentDay := n1, startYear := y1, totalDays := td1 }

/-- The time normalization loop of `setCurrentTime`:
`while (n < 0) n += metrics["day"]`. -/
def timeLoop (day : Int) : Nat → Int → Except JsErr Int
  | 0, n => if n < 0 then .error .fuelOut else .ok n
  | fuel + 1, n => if n < 0 then timeLoop day fuel (n + day) else .ok n

/-- `Calendar.setCurrentTime(n)`: normalizes `n` into `[0, metrics["day"])`
and assigns `currentTime = n % metrics["day"]` (JS `%` is the truncating
remainder, `Int.tmod`). -/
def setCurrentTime (s : CalState) (day n : Int) : Except JsErr CalState :=
  match timeLoop day (n.natAbs + 1) n with
  | .error e => .error e
  | .ok n1 => .ok { s with currentTime := Int.tmod n1 day }

/-- `Calendar.adjustDay(n)`: relative day adjustment. -/
def adjustDay (gen : Int → List Extent) (s : CalState) (n : Int) :
    Except JsErr CalState :=
  setCurrentDay gen s (s.currentDay + n)

/-- `Calendar.adjustTime(n)`: rolls the day by the whole days spanned
(`Math.floor(newTime / metrics["day"])` is floor division, `Int.fdiv`),
then normalizes the residual time of day. -/
def adjustTime (gen : Int → List Extent) (day : Int) (s : CalState)
    (n : Int) : Except JsErr CalState :=
  let newTime := s.currentTime + n
  match setCurrentDay gen s (s.currentDay + Int.fdiv newTime day) with
  | .error e => .error e
  | .ok s1 => setCurrentTime s1 day newTime

/-! ## Concrete calendars used for evaluation -/

/-- A leap-year-style generator: every year is one extent long, 365 days,
except year 2024 which has 366 (as the default Gregorian generator has for
its leap years). -/
def genLeap : Int → List Extent :=
  fun y => [⟨"Year", if y = 2024 then 366 else 365⟩]

/-- A constant generator: every year is a single 365-day extent. -/
def genConst : Int → List Extent := fun _ => [⟨"Year", 365⟩]

/-- A calendar positioned at day 0 of year 2023, caches empty. -/
def cal2023 : CalState := ⟨[], [], 2023, 0, 0, 0, []⟩

/-- A calendar positioned at day 364 of the 365-day year 2023. -/
def cal2023end : CalState := ⟨[], [], 2023, 365, 364, 0, []⟩

/-- Claim C1: refuted by evaluation.  With the leap generator (365-day
year 2023, 366-day year 2024), `setCurrentDay(365)` from year 2023 returns
normally with `currentDay = -1`, `startYear = 2024`, `totalDays = 366`:
the forward rollover subtracts the *new* year's length, so the committed
state violates `0 ≤ currentDay`. -/
theorem setCurrentDay_commits_negative_day :
    ((setCurrentDay genLeap cal2023 365).toOption.map
      fun s => (s.currentDay, s.startYear, s.totalDays)) =
      some (-1, 2024, 366) ∧
    ¬ (0 : Int) ≤ -1 := by decide

/-- The two-step run `adjustDay(1); adjustDay(-1)` from day 364 of year
2023 under the leap generator. -/
def roundTripRun : Except JsErr CalState :=
  match adjustDay genLeap cal2023end 1 with
  | .error e => .error e
  | .ok s1 => adjustDay genLeap s1 (-1)

/-- Claim C2: refuted by evaluation.  Starting from
`(startYear, currentDay) = (2023, 364)` under the leap generator,
`adjustDay(1); adjustDay(-1)` ends at `(2023, 363)`, not at the original
`(2023, 364)`: the asymmetric rollover arithmetic loses a day across the
boundary into the longer year. -/
theorem adjustDay_round_trip_fails :
    (roundTripRun.toOption.map fun s => (s.startYear, s.currentDay)) =
      some (2023, 363) ∧
    (cal2023end.startYear, cal2023end.currentDay) = (2023, 364) ∧
    ((2023 : Int), (363 : Int)) ≠ (2023, 364) := by decide

/-- JS `x || d` on an integer `x`: falls back to `d` exactly when `x` is
falsy, i.e. `x = 0`. -/
def jsOrInt (x d : Int) : Int := if x = 0 then d else x

/-- The constructor's assignment `this.startYear = props?.startYear || 2022`
(src/Calendar.ts, line 164), applied to a supplied integer `startYear`. -/
def ctorStartYear (startYear : Int) : Int := jsOrInt startYear 2022

/-! ## Unreachability of the backward-then-forward consistency error (C6) -/

theorem buildExtents_error_cached (gen : Int → List Extent) (s : CalState)
    (year : Int) (e : JsErr) (h : buildExtents gen s year = .error e) :
    e = .fatalAlreadyCached := by
  unfold buildExtents at h
  split at h
  · injection h with h
    exact h.symm
  · exact Except.noConfusion h

theorem getLengthOfYear_error_ne (gen : Int → List Extent) (s : CalState)
    (year : Int) (e : JsErr) (h : getLengthOfYear gen s year = .error e) :
    e ≠ .fatalBackForth ∧ e ≠ .fuelOut := by
  unfold getLengthOfYear at h
  split at h
  case _ e1 heq =>
    split at heq
    · exact Except.noConfusion heq
    · injection h with h
      subst h
      have := buildExtents_error_cached gen s year e1 heq
      subst this
      exact ⟨by simp, by simp⟩
  case _ s1 heq =>
    split at h
    · injection h with h
      subst h
      exact ⟨by simp, by simp⟩
    · split at h
      · injection h with h
        subst h
        exact ⟨by simp, by simp⟩
      · exact Except.noConfusion h

theorem rollBackward_error_ne (gen : Int → List Extent) :
    ∀ (fuel : Nat) (s : CalState) (y td n : Int) (e : JsErr),
      rollBackward gen fuel s y td n = .error e → e ≠ .fatalBackForth := by
  intro fuel
  induction fuel with
  | zero =>
    intro s y td n e h
    unfold rollBackward at h
    split at h
    · injection h with h
      subst h
      simp
    · exact Except.noConfusion h
  | succ f ih =>
    intro s y td n e h
    unfold rollBackward at h
    split at h
    · split at h
      case _ e1 heq => injection h with h; subst h
                       exact (getLengthOfYear_error_ne gen s (y - 1) e1 heq).1
      case _ s1 td1 heq => exact ih s1 (y - 1) td1 (n + td1) e h
    · exact Except.noConfusion h

theorem rollForward_error_ne (gen : Int → List Extent) :
    ∀ (fuel : Nat) (s : CalState) (y td n : Int) (e : JsErr),
      rollForward gen fuel s y td n = .error e → e ≠ .fatalBackForth := by
  intro fuel
  induction fuel with
  | zero =>
    intro s y td n e h
    unfold rollForward at h
    split at h
    · injection h with h
      subst h
      simp
    · exact Except.noConfusion h
  | succ f ih =>
    intro s y td n e h
    unfold rollForward at h
    split at h
    · split at h
      case _ e1 heq => injection h with h; subst h
                       exact (getLengthOfYear_error_ne gen s (y + 1) e1 heq).1
      case _ s1 td1 heq => exact ih s1 (y + 1) td1 (n - td1) e h
    · exact Except.noConfusion h

/-- After the backward loop, either nothing happened (`n` was already
non-negative, all loop state unchanged) or the final offset is strictly
below the final year length (the last iteration added the full new year
length to a negative offset). -/
theorem rollBackward_cases (gen : Int → List Extent) :
    ∀ (fuel : Nat) (s : CalState) (y td n : Int) (s' : CalState)
      (y' td' n' : Int),
      rollBackward gen fuel s y td n = .ok (s', y', td', n') →
      (s' = s ∧ y' = y ∧ td' = td ∧ n' = n ∧ 0 ≤ n) ∨ n' < td' := by
  intro fuel
  induction fuel with
  | zero =>
    intro s y td n s' y' td' n' h
    unfold rollBackward at h
    split at h
    · exact Except.noConfusion h
    · injection h with h
      injection h with h1 h
      injection h with h2 h
      injection h with h3 h4
      exact Or.inl ⟨h1.symm, h2.symm, h3.symm, h4.symm, by omega⟩
  | succ f ih =>
    intro s y td n s' y' td' n' h
    unfold rollBackward at h
    split at h
    case _ hn =>
      split at h
      case _ e1 heq => exact Except.noConfusion h
      case _ s1 td1 heq =>
        rcases ih s1 (y - 1) td1 (n + td1) s' y' td' n' h with
          ⟨_, _, htd, hn', _⟩ | hlt
        · subst htd
          subst hn'
          exact Or.inr (by omega)
        · exact Or.inr hlt
    case _ hn =>
      injection h with h
      injection h with h1 h
      injection h with h2 h
      injection h with h3 h4
      exact Or.inl ⟨h1.symm, h2.symm, h3.symm, h4.symm, by omega⟩

/-- Claim C6: confirmed.  For every generator, state and argument,
`setCurrentDay` never raises the "day adjusted backward is now being
adjust forward" internal-consistency error: if the backward loop ran at
all, it exits with `n < totalDays`, so the forward branch is entered only
when the year is unchanged. -/
theorem setCurrentDay_never_backforth (gen : Int → List Extent)
    (s : CalState) (n : Int) :
    setCurrentDay gen s n ≠ .error .fatalBackForth := by
  unfold setCurrentDay
  split
  case _ e heq =>
    intro hcontra
    injection hcontra with hcontra
    exact (getLengthOfYear_error_ne gen s s.startYear e heq).1 hcontra
  case _ s1 td0 heq =>
    split
    case _ e heq2 =>
      intro hcontra
      injection hcontra with hcontra
      exact rollBackward_error_ne gen (n.natAbs + 1) s1 s.startYear td0 n e
        heq2 hcontra
    case _ s2 y1 td1 n1 heq2 =>
      split
      case _ hge =>
        rcases rollBackward_cases gen (n.natAbs + 1) s1 s.startYear td0 n
          s2 y1 td1 n1 heq2 with ⟨_, hy, _, _, _⟩ | hlt
        · rw [if_neg (by simp [hy])]
          split
          case _ e heq3 =>
            intro hcontra
            injection hcontra with hcontra
            exact rollForward_error_ne gen (n.natAbs + 1) s2 y1 td1 n1 e
              heq3 hcontra
          case _ => exact fun hcontra => Except.noConfusion hcontra
        · omega
      case _ => exact fun hcontra => Except.noConfusion hcontra

/-- Claim C8: refuted by evaluation.  A supplied `startYear = 0` passes the
constructor's `undefined` check but is falsy, so `|| 2022` replaces it:
the constructed calendar's `startYear` is `2022`, not the supplied `0`
(this also makes the declared default `startYear = 0` of
`DefaultCalendarOptions` unreachable). -/
theorem ctorStartYear_zero_is_replaced :
    ctorStartYear 0 = 2022 ∧ (2022 : Int) ≠ 0 := by decide

/-! ## Cache consistency and loop termination (C9, C10) -/

/-- The resolved form of an extent list: each extent positioned at the
running sum of the preceding lengths.  This is what `buildExtents` stores
in `extentsByStart` (see `buildLoop_fst`). -/
def resolveList (year : Int) : Int → List Extent → List InternalExtent
  | _, [] => []
  | start, e :: rest => ⟨year, start, e⟩ :: resolveList year (start + e.length) rest

theorem buildLoop_fst (year : Int) :
    ∀ (l : List Extent) (start : Int)
      (bn : List (String × List (Int × InternalExtent))),
      (buildLoop year start bn l).1 = resolveList year start l := by
  intro l
  induction l with
  | nil => intro start bn; rfl
  | cons e rest ih =>
    intro start bn
    simp only [buildLoop, resolveList]
    rw [ih]

/-- The total day count of a year as the source computes it: the last
resolved extent's `startDay + length` (`none` when the generator returns
an empty list, where the JS code crashes). -/
def yearTotal (gen : Int → List Extent) (y : Int) : Option Int :=
  lastTotal (resolveList y 0 (gen y))

/-- Cache consistency: every populated `extentsByStart` entry holds
exactly the resolved generator output for its year.  Holds for the fresh
(empty-cache) state and is preserved by every operation. -/
def Consistent (gen : Int → List Extent) (s : CalState) : Prop :=
  ∀ y l, lookupA s.extentsByStart y = some l → l = resolveList y 0 (gen y)

theorem getLengthOfYear_ok (gen : Int → List Extent) (s : CalState)
    (y t : Int) (hc : Consistent gen s) (ht : yearTotal gen y = some t) :
    ∃ s1, getLengthOfYear gen s y = .ok (s1, t) ∧ Consistent gen s1 := by
  unfold yearTotal at ht
  cases hcache : lookupA s.extentsByStart y with
  | some l =>
    refine ⟨s, ?_, hc⟩
    have hl := hc y l hcache
    subst hl
    simp only [getLengthOfYear, hcache, Option.isSome_some, if_true, hcache, ht]
  | none =>
    refine ⟨{ s with
      extentsByStart :=
        insertA s.extentsByStart y (buildLoop y 0 s.extentsByName (gen y)).1,
      extentsByName := (buildLoop y 0 s.extentsByName (gen y)).2,
      genLog := y :: s.genLog }, ?_, ?_⟩
    · simp only [getLengthOfYear, hcache, Option.isSome_none, Bool.false_eq_true,
        if_false, buildExtents, hcache]
      simp only [lookupA_insertA_self, buildLoop_fst, ht]
    · intro z l' hz
      by_cases hzy : z = y
      · subst hzy
        simp only [lookupA_insertA_self, buildLoop_fst] at hz
        injection hz with hz
        exact hz.symm
      · simp only [lookupA_insertA_ne _ _ _ _ (fun h => hzy h.symm)] at hz
        exact hc z l' hz

theorem rollBackward_ok (gen : Int → List Extent)
    (hpos : ∀ y, ∃ t, yearTotal gen y = some t ∧ 0 < t) :
    ∀ (fuel : Nat) (s : CalState) (y td n : Int),
      Consistent gen s → (-n).toNat ≤ fuel →
      ∃ s' y' td' n',
        rollBackward gen fuel s y td n = .ok (s', y', td', n') ∧
        Consistent gen s' := by
  intro fuel
  induction fuel with
  | zero =>
    intro s y td n hc hfuel
    have hn : ¬ n < 0 := by omega
    exact ⟨s, y, td, n, by simp [rollBackward, hn], hc⟩
  | succ f ih =>
    intro s y td n hc hfuel
    by_cases hn : n < 0
    · obtain ⟨t, ht, ht0⟩ := hpos (y - 1)
      obtain ⟨s1, hok, hc1⟩ := getLengthOfYear_ok gen s (y - 1) t hc ht
      obtain ⟨s', y', td', n', hok', hc'⟩ :=
        ih s1 (y - 1) t (n + t) hc1 (by omega)
      refine ⟨s', y', td', n', ?_, hc'⟩
      simp only [rollBackward, hn, if_true, hok, hok']
    · exact ⟨s, y, td, n, by simp [rollBackward, hn], hc⟩

theorem rollForward_ok (gen : Int → List Extent)
    (hpos : ∀ y, ∃ t, yearTotal gen y = some t ∧ 0 < t) :
    ∀ (fuel : Nat) (s : CalState) (y td n : Int),
      Consistent gen s → 0 < td → n.toNat ≤ fuel →
      ∃ s' y' td' n',
        rollForward gen fuel s y td n = .ok (s', y', td', n') ∧
        Consistent gen s' := by
  intro fuel
  induction fuel with
  | zero =>
    intro s y td n hc htd hfuel
    have hn : ¬ n ≥ td := by omega
    exact ⟨s, y, td, n, by simp [rollForward, hn], hc⟩
  | succ f ih =>
    intro s y td n hc htd hfuel
    by_cases hn : n ≥ td
    · obtain ⟨t, ht, ht0⟩ := hpos (y + 1)
      obtain ⟨s1, hok, hc1⟩ := getLengthOfYear_ok gen s (y + 1) t hc ht
      obtain ⟨s', y', td', n', hok', hc'⟩ :=
        ih s1 (y + 1) t (n - t) hc1 ht0 (by omega)
      refine ⟨s', y', td', n', ?_, hc'⟩
      simp only [rollForward, hn, if_true, hok, hok']
    · exact ⟨s, y, td, n, by simp [rollForward, hn], hc⟩

theorem setCurrentDay_ok (gen : Int → List Extent) (s : CalState) (n : Int)
    (hc : Consistent gen s)
    (hpos : ∀ y, ∃ t, yearTotal gen y = some t ∧ 0 < t) :
    ∃ s', setCurrentDay gen s n = .ok s' ∧ Consistent gen s' := by
  obtain ⟨t0, ht0, ht0pos⟩ := hpos s.startYear
  obtain ⟨s1, hok1, hc1⟩ := getLengthOfYear_ok gen s s.startYear t0 hc ht0
  obtain ⟨s2, y1, td1, n1, hok2, hc2⟩ :=
    rollBackward_ok gen hpos (n.natAbs + 1) s1 s.startYear t0 n hc1 (by omega)
  by_cases hge : n1 ≥ td1
  · rcases rollBackward_cases gen (n.natAbs + 1) s1 s.startYear t0 n
      s2 y1 td1 n1 hok2 with ⟨hs2, hy, htd, hn1, hn0⟩ | hlt
    · obtain ⟨s3, y2, td2, n2, hok3, hc3⟩ :=
        rollForward_ok gen hpos (n.natAbs + 1) s2 y1 td1 n1 hc2
          (by omega) (by omega)
      refine ⟨{ s3 with currentDay := n2, startYear := y2, totalDays := td2 },
        ?_, hc3⟩
      simp only [setCurrentDay, hok1, hok2, if_pos hge]
      rw [if_neg (by simp [hy])]
      simp only [hok3]
    · omega
  · refine ⟨{ s2 with currentDay := n1, startYear := y1, totalDays := td1 },
      ?_, hc2⟩
    simp only [setCurrentDay, hok1, hok2, if_neg hge]

theorem timeLoop_ok (day : Int) (hd : 0 < day) :
    ∀ (fuel : Nat) (n : Int), (-n).toNat ≤ fuel →
      ∃ m, timeLoop day fuel n = .ok m ∧ 0 ≤ m ∧ m % day = n % day := by
  intro fuel
  induction fuel with
  | zero =>
    intro n hfuel
    have hn : ¬ n < 0 := by omega
    exact ⟨n, by simp [timeLoop, hn], by omega, rfl⟩
  | succ f ih =>
    intro n hfuel
    by_cases hn : n < 0
    · obtain ⟨m, hok, hm0, hmod⟩ := ih (n + day) (by omega)
      refine ⟨m, by simp [timeLoop, hn, hok], hm0, ?_⟩
      rw [hmod, Int.add_emod_self]
    · exact ⟨n, by simp [timeLoop, hn], by omega, rfl⟩

/-- Helper: whether an `Except` computation succeeded. -/
def exOk {ε α : Type} : Except ε α → Bool
  | .ok _ => true
  | .error _ => false

/-- Claim C9: confirmed.  With `metrics["day"] > 0`, `setCurrentTime(n)`
succeeds and the entire post-state is the pre-state with only
`currentTime` replaced by the mathematical modulus `n mod day` (hence in
`[0, day)` even for negative `n`); `currentDay`, `startYear`, `totalDays`
and both extent-cache views are untouched. -/
theorem setCurrentTime_normalizes (s : CalState) (day n : Int)
    (hd : 0 < day) :
    setCurrentTime s day n = .ok { s with currentTime := n % day } ∧
    0 ≤ n % day ∧ n % day < day := by
  obtain ⟨m, hok, hm0, hmod⟩ := timeLoop_ok day hd (n.natAbs + 1) n (by omega)
  refine ⟨?_, Int.emod_nonneg n (by omega), Int.emod_lt_of_pos n hd⟩
  simp only [setCurrentTime, hok]
  rw [Int.tmod_eq_emod hm0 (by omega), hmod]

/-- Witness for C9 at a concrete calendar, day length and negative time. -/
theorem setCurrentTime_normalizes_witness :
    setCurrentTime cal2023 86400 (-100) =
      .ok { cal2023 with currentTime := (-100 : Int) % 86400 } ∧
    0 ≤ (-100 : Int) % 86400 ∧ (-100 : Int) % 86400 < 86400 :=
  setCurrentTime_normalizes cal2023 86400 (-100) (by decide)

/-- Claim C10: confirmed.  When every year the generator can produce has a
positive total length (last extent's `startDay + length > 0`, which in
particular requires a non-empty extent list) and `metrics["day"] > 0`,
both `setCurrentDay(n)` and `setCurrentTime(n)` terminate successfully for
every integer `n`, from any cache-consistent state: each rollover loop
strictly shrinks its distance to the exit condition, so the modelled fuel
is never exhausted. -/
theorem setters_terminate (gen : Int → List Extent) (s : CalState)
    (day n : Int) (hc : Consistent gen s)
    (hpos : ∀ y, ∃ t, yearTotal gen y = some t ∧ 0 < t) (hd : 0 < day) :
    exOk (setCurrentDay gen s n) = true ∧
    exOk (setCurrentTime s day n) = true := by
  constructor
  · obtain ⟨s', hok, _⟩ := setCurrentDay_ok gen s n hc hpos
    simp [hok, exOk]
  · obtain ⟨m, hok, _, _⟩ := timeLoop_ok day hd (n.natAbs + 1) n (by omega)
    simp [setCurrentTime, hok, exOk]

/-- Witness for C10: the constant 365-day generator, fresh calendar,
standard day length, and a negative day argument forcing a backward roll. -/
theorem setters_terminate_witness :
    exOk (setCurrentDay genConst cal2023 (-400)) = true ∧
    exOk (setCurrentTime cal2023 86400 (-400)) = true :=
  setters_terminate genConst cal2023 86400 (-400)
    (fun y l h => absurd h (by simp [lookupA, cal2023]))
    (fun y => ⟨365, rfl, by decide⟩) (by decide)

/-! ## At-most-once generator invocation (C7)

`genLog` records one entry per generator invocation (`buildExtents` is the
only caller of the generator, and the only caller of `buildExtents` is
`getLengthOfYear`, guarded by the cache check).  `LogGood` states that the
log is duplicate-free and coincides with the populated cache keys; it
holds for a fresh calendar and is preserved by every public operation. -/

/-- The public mutating operations of a `Calendar`. -/
inductive CalOp where
  | setDay (n : Int)
  | setTime (n : Int)
  | adjDay (n : Int)
  | adjTime (n : Int)

/-- Dispatch one public operation (`day` is `metrics["day"]`). -/
def runOp (gen : Int → List Extent) (day : Int) (s : CalState) :
    CalOp → Except JsErr CalState
  | .setDay n => setCurrentDay gen s n
  | .setTime n => setCurrentTime s day n
  | .adjDay n => adjustDay gen s n
  | .adjTime n => adjustTime gen day s n

/-- Run a whole sequence of public operations. -/
def runAll (gen : Int → List Extent) (day : Int) :
    List CalOp → CalState → Except JsErr CalState
  | [], s => .ok s
  | op :: ops, s =>
    match runOp gen day s op with
    | .error e => .error e
    | .ok s1 => runAll gen day ops s1

/-- The generator-invocation log is duplicate-free and lists exactly the
cached years. -/
def LogGood (s : CalState) : Prop :=
  s.genLog.Nodup ∧
  ∀ y, y ∈ s.genLog ↔ (lookupA s.extentsByStart y).isSome = true

theorem buildExtents_logGood (gen : Int → List Extent) (s : CalState)
    (year : Int) (s' : CalState) (h : buildExtents gen s year = .ok s')
    (hl : LogGood s) : LogGood s' := by
  unfold buildExtents at h
  split at h
  · exact Except.noConfusion h
  case _ hun =>
    injection h with h
    subst h
    obtain ⟨hnd, hiff⟩ := hl
    constructor
    · exact List.nodup_cons.mpr ⟨fun hmem => hun ((hiff year).mp hmem), hnd⟩
    · intro z
      by_cases hzy : z = year
      · subst hzy
        simp [lookupA_insertA_self]
      · simp only [List.mem_cons, hzy, false_or]
        rw [lookupA_insertA_ne _ _ _ _ (fun h => hzy h.symm)]
        exact hiff z

theorem getLengthOfYear_logGood (gen : Int → List Extent) (s : CalState)
    (year : Int) (r : CalState × Int) (h : getLengthOfYear gen s year = .ok r)
    (hl : LogGood s) : LogGood r.1 := by
  unfold getLengthOfYear at h
  split at h
  · exact Except.noConfusion h
  case _ s1 heq =>
    have hs1 : LogGood s1 := by
      split at heq
      · injection heq with heq
        subst heq
        exact hl
      · exact buildExtents_logGood gen s year s1 heq hl
    split at h
    · exact Except.noConfusion h
    · split at h
      · exact Except.noConfusion h
      · injection h with h
        subst h
        exact hs1

theorem rollBackward_logGood (gen : Int → List Extent) :
    ∀ (fuel : Nat) (s : CalState) (y td n : Int) (s' : CalState)
      (y' td' n' : Int),
      rollBackward gen fuel s y td n = .ok (s', y', td', n') →
      LogGood s → LogGood s' := by
  intro fuel
  induction fuel with
  | zero =>
    intro s y td n s' y' td' n' h hl
    unfold rollBackward at h
    split at h
    · exact Except.noConfusion h
    · injection h with h
      injection h with h1 h
      subst h1
      exact hl
  | succ f ih =>
    intro s y td n s' y' td' n' h hl
    unfold rollBackward at h
    split at h
    · split at h
      · exact Except.noConfusion h
      case _ s1 td1 heq =>
        exact ih s1 (y - 1) td1 (n + td1) s' y' td' n' h
          (getLengthOfYear_logGood gen s (y - 1) (s1, td1) heq hl)
    · injection h with h
      injection h with h1 h
      subst h1
      exact hl

theorem rollForward_logGood (gen : Int → List Extent) :
    ∀ (fuel : Nat) (s : CalState) (y td n : Int) (s' : CalState)
      (y' td' n' : Int),
      rollForward gen fuel s y td n = .ok (s', y', td', n') →
      LogGood s → LogGood s' := by
  intro fuel
  induction fuel with
  | zero =>
    intro s y td n s' y' td' n' h hl
    unfold rollForward at h
    split at h
    · exact Except.noConfusion h
    · injection h with h
      injection h with h1 h
      subst h1
      exact hl
  | succ f ih =>
    intro s y td n s' y' td' n' h hl
    unfold rollForward at h
    split at h
    · split at h
      · exact Except.noConfusion h
      case _ s1 td1 heq =>
        exact ih s1 (y + 1) td1 (n - td1) s' y' td' n' h
          (getLengthOfYear_logGood gen s (y + 1) (s1, td1) heq hl)
    · injection h with h
      injection h with h1 h
      subst h1
      exact hl

/-- `LogGood` only mentions the cache and the log, so the position-field
commit of `setCurrentDay` preserves it. -/
theorem logGood_commit (s : CalState) (d y td : Int) (hl : LogGood s) :
    LogGood { s with currentDay := d, startYear := y, totalDays := td } := hl

theorem setCurrentDay_logGood (gen : Int → List Extent) (s : CalState)
    (n : Int) (s' : CalState) (h : setCurrentDay gen s n = .ok s')
    (hl : LogGood s) : LogGood s' := by
  unfold setCurrentDay at h
  split at h
  · exact Except.noConfusion h
  case _ s1 td0 heq1 =>
    have hl1 : LogGood s1 :=
      getLengthOfYear_logGood gen s s.startYear (s1, td0) heq1 hl
    split at h
    · exact Except.noConfusion h
    case _ s2 y1 td1 n1 heq2 =>
      have hl2 : LogGood s2 :=
        rollBackward_logGood gen (n.natAbs + 1) s1 s.startYear td0 n
          s2 y1 td1 n1 heq2 hl1
      split at h
      · split at h
        · exact Except.noConfusion h
        · split at h
          · exact Except.noConfusion h
          case _ s3 y2 td2 n2 heq3 =>
            injection h with h
            subst h
            exact logGood_commit s3 n2 y2 td2
              (rollForward_logGood gen (n.natAbs + 1) s2 y1 td1 n1
                s3 y2 td2 n2 heq3 hl2)
      · injection h with h
        subst h
        exact logGood_commit s2 n1 y1 td1 hl2

theorem setCurrentTime_logGood (s : CalState) (day n : Int) (s' : CalState)
    (h : setCurrentTime s day n = .ok s') (hl : LogGood s) : LogGood s' := by
  unfold setCurrentTime at h
  split at h
  · exact Except.noConfusion h
  · injection h with h
    subst h
    exact hl

theorem runOp_logGood (gen : Int → List Extent) (day : Int) (s : CalState)
    (op : CalOp) (s' : CalState) (h : runOp gen day s op = .ok s')
    (hl : LogGood s) : LogGood s' := by
  cases op with
  | setDay n => exact setCurrentDay_logGood gen s n s' h hl
  | setTime n => exact setCurrentTime_logGood s day n s' h hl
  | adjDay n => exact setCurrentDay_logGood gen s (s.currentDay + n) s' h hl
  | adjTime n =>
    simp only [runOp, adjustTime] at h
    split at h
    · exact Except.noConfusion h
    case _ s1 heq =>
      exact setCurrentTime_logGood s1 day (s.currentTime + n) s' h
        (setCurrentDay_logGood gen s
          (s.currentDay + Int.fdiv (s.currentTime + n) day) s1 heq hl)

theorem runAll_logGood (gen : Int → List Extent) (day : Int) :
    ∀ (ops : List CalOp) (s s' : CalState),
      runAll gen day ops s = .ok s' → LogGood s → LogGood s' := by
  intro ops
  induction ops with
  | nil =>
    intro s s' h hl
    unfold runAll at h
    injection h with h
    subst h
    exact hl
  | cons op rest ih =>
    intro s s' h hl
    unfold runAll at h
    split at h
    · exact Except.noConfusion h
    case _ s1 heq =>
      exact ih s1 s' h (runOp_logGood gen day s op s1 heq hl)

/-- Claim C7: confirmed.  Over any successful sequence of public
operations started from a state whose invocation log matches its cache
(e.g. a fresh calendar), the generator-invocation log stays duplicate-free
— the generator is invoked at most once per distinct year for the
calendar's lifetime.  Moreover a cache hit in `getLengthOfYear` leaves the
state untouched (no re-invocation), while calling `buildExtents` on an
already-cached year signals the distinct fatal internal-consistency error
rather than a normal validation error. -/
theorem populateExtents_at_most_once (gen : Int → List Extent) (day : Int)
    (ops : List CalOp) (s s' : CalState) (hlog : LogGood s)
    (hrun : runAll gen day ops s = .ok s') :
    s'.genLog.Nodup ∧
    (∀ (s2 : CalState) (y : Int),
        (lookupA s2.extentsByStart y).isSome = true →
        buildExtents gen s2 y = .error .fatalAlreadyCached) ∧
    (∀ (s2 : CalState) (y : Int) (r : CalState × Int),
        (lookupA s2.extentsByStart y).isSome = true →
        getLengthOfYear gen s2 y = .ok r → r.1 = s2) := by
  refine ⟨(runAll_logGood gen day ops s s' hrun hlog).1, ?_, ?_⟩
  · intro s2 y hcached
    simp [buildExtents, hcached]
  · intro s2 y r hcached h
    simp only [getLengthOfYear, hcached, if_true] at h
    split at h
    · exact Except.noConfusion h
    · split at h
      · exact Except.noConfusion h
      · injection h with h
        subst h
        rfl

/-- The state after running `setCurrentDay(3)` on a fresh calendar with
the constant generator. -/
def calRun1 : CalState :=
  match runAll genConst 86400 [CalOp.setDay 3] cal2023 with
  | .ok s => s
  | .error _ => cal2023

/-- Witness for C7: a concrete run, after which the log is duplicate-free
and re-resolving the (now cached) year 2023 signals the fatal error. -/
theorem populateExtents_at_most_once_witness :
    calRun1.genLog.Nodup ∧
    buildExtents genConst calRun1 2023 = .error .fatalAlreadyCached := by
  have h := populateExtents_at_most_once genConst 86400 [CalOp.setDay 3]
    cal2023 calRun1
    ⟨List.nodup_nil, fun y => by simp [cal2023, lookupA]⟩ rfl
  exact ⟨h.1, h.2.1 calRun1 2023 (by decide)⟩

end MtCalendar
